import Mathlib

/-!
Verification of the conditional read-modify-write engine of
`rtcclient/workitem.py` (class `Workitem`): subscriber add/remove
(single and batch), comment append, and comment lookup by id.

The embedding models:
* a Python value (`PyVal`) as far as the code inspects dynamic types
  (`isinstance(x, bool)`, `isinstance(x, six.string_types)`,
  `isinstance(x, int)`, `hasattr(x, "__iter__")`);
* the wire shape of the `rtc_cm:subscribers` property as produced by
  `xmltodict`: absent, a bare mapping (exactly one member), or a list of
  mappings (`SubsProp`);
* each public mutation as a function from the fetched server state to a
  `Trace` recording how many GET and PUT requests the call issues and
  either the state written back (or left unchanged when the write is
  skipped) or the raised error kind.

`rtc_obj.getOwnedBy(email).url` is an external directory lookup and is
passed in as an abstract `resolve : String → String` function.
-/

namespace RTC

/-- A Python runtime value, as far as `workitem.py` discriminates types:
booleans, ints, strings, and lists (the generic iterable container). -/
inductive PyVal where
  | pyStr (s : String)
  | pyInt (n : Int)
  | pyBool (b : Bool)
  | pyList (l : List PyVal)

/-- The error kinds of `rtcclient.exception` used by `workitem.py`, plus
the transport's own `HTTPError`. -/
inductive RTCError where
  | badValue
  | notFound
  | httpError
deriving DecidableEq, Repr

/-- Wire shape of the `rtc_cm:subscribers` property inside the parsed
`rdf:Description` mapping: either a bare mapping (`OrderedDict`) holding a
single member reference URL, or a list of such mappings.  The absent case
is `none` at the use sites (`description.get("rtc_cm:subscribers", None)`). -/
inductive SubsProp where
  | one (u : String)
  | many (us : List String)
deriving DecidableEq, Repr

/-- The logical member-reference collection encoded by the property. -/
def members : Option SubsProp → List String
  | none => []
  | some (.one u) => [u]
  | some (.many us) => us

/-- The shapes `xmltodict.parse` can produce for a repeated element: a
list arm only ever holds two or more mappings. -/
def wellShaped : Option SubsProp → Prop
  | some (.many us) => 2 ≤ us.length
  | _ => True

/-- The absent/singleton/plural wire convention: zero members is encoded
by deleting the property, exactly one member by a bare mapping, and two or
more members by a list. -/
def shapeOk (st : Option SubsProp) : Prop :=
  (members st = [] → st = none) ∧
  (∀ u, members st = [u] → st = some (.one u)) ∧
  (2 ≤ (members st).length → ∃ us, 2 ≤ us.length ∧ st = some (.many us))

/-- `"@" in s` on a Python string, over the character list. -/
def hasAt : List Char → Bool
  | [] => false
  | c :: rest => if c = '@' then true else hasAt rest

/-- `isinstance(email, six.string_types) and "@" in email`: the email
validity test of `_add_subscriber` / `_remove_subscriber`. -/
def isValidEmail : PyVal → Bool
  | .pyStr s => hasAt s.toList
  | _ => false

/-- The `for exist_sub in subs` scan of `_add_subscriber`: the
`existed_flag` left by the loop (with the `for`/`else` append skipped on a
break).  It is `true` exactly when some entry equals the new member URL. -/
def scanExist (u : String) : List String → Bool
  | [] => false
  | x :: rest => if x = u then true else scanExist u rest

/-- The `for exist_sub in subs` scan of `_remove_subscriber`: returns the
final `missing_flag` and the list after `subs.remove(exist_sub)` removed
the first matching entry (the list is unchanged when nothing matched). -/
def rmScan (u : String) : List String → Bool × List String
  | [] => (true, [])
  | x :: rest =>
      if x = u then (false, rest)
      else
        let p := rmScan u rest
        (p.1, x :: p.2)

/-- `Workitem._add_subscriber(email, raw_data)`: validates the email, then
inserts the resolved member URL into the property unless it is already
present.  Returns `(existed_flag, new_state)` or raises `BadValue`. -/
def add_subscriber (resolve : String → String) (email : PyVal)
    (st : Option SubsProp) : Except RTCError (Bool × Option SubsProp) :=
  match email with
  | .pyStr s =>
      if hasAt s.toList then
        let u := resolve s
        match st with
        | none => .ok (false, some (.one u))
        | some (.one u0) =>
            if u0 = u then .ok (true, some (.one u0))
            else .ok (false, some (.many [u0, u]))
        | some (.many us) =>
            if scanExist u us then .ok (true, some (.many us))
            else .ok (false, some (.many (us ++ [u])))
      else .error .badValue
  | _ => .error .badValue

/-- `Workitem._remove_subscriber(email, raw_data)`: validates the email,
then removes the first entry matching the resolved member URL, collapsing
a one-element remainder to a bare mapping and deleting the property when
the single subscriber was removed.  Returns `(missing_flag, new_state)`. -/
def remove_subscriber (resolve : String → String) (email : PyVal)
    (st : Option SubsProp) : Except RTCError (Bool × Option SubsProp) :=
  match email with
  | .pyStr s =>
      if hasAt s.toList then
        let u := resolve s
        match st with
        | none => .ok (true, none)
        | some (.one u0) =>
            if u0 = u then .ok (false, none)
            else .ok (true, some (.one u0))
        | some (.many us) =>
            if (rmScan u us).1 then .ok (true, some (.many us))
            else
              match (rmScan u us).2 with
              | [x] => .ok (false, some (.one x))
              | us2 => .ok (false, some (.many us2))
      else .error .badValue
  | _ => .error .badValue

/-- A call trace of one public mutation: number of GET requests, number of
PUT requests, and the resulting server state (or the raised error). -/
structure Trace where
  gets : Nat
  puts : Nat
  result : Except RTCError (Option SubsProp)

/-- The common tail of the four subscriber mutations: the fetch has
happened (one GET); if the no-op flag is set the call returns without
writing, otherwise `_update_subscribe` issues exactly one PUT of the
mutated state.  A raised `BadValue` also skips the write. -/
def runBatch (r : Except RTCError (Bool × Option SubsProp))
    (server : Option SubsProp) : Trace :=
  match r with
  | .error e => ⟨1, 0, .error e⟩
  | .ok (true, _) => ⟨1, 0, .ok server⟩
  | .ok (false, st) => ⟨1, 1, .ok st⟩

/-- `Workitem.addSubscriber(email)`: `_perform_subscribe` (GET), then
`_add_subscriber`, then `_update_subscribe` (PUT) unless `existed_flag`. -/
def addSubscriber (resolve : String → String) (email : PyVal)
    (server : Option SubsProp) : Trace :=
  runBatch (add_subscriber resolve email server) server

/-- `Workitem.removeSubscriber(email)`: `_perform_subscribe` (GET), then
`_remove_subscriber`, then `_update_subscribe` (PUT) unless
`missing_flag`. -/
def removeSubscriber (resolve : String → String) (email : PyVal)
    (server : Option SubsProp) : Trace :=
  runBatch (remove_subscriber resolve email server) server

/-- `hasattr(emails_list, "__iter__")` on a Python 3 value: strings and
lists are iterable, ints and booleans are not. -/
def hasIter : PyVal → Bool
  | .pyStr _ => true
  | .pyList _ => true
  | _ => false

/-- `for email in emails_list`: a list yields its elements, a string
yields its characters as one-character strings. -/
def toIterable : PyVal → List PyVal
  | .pyStr s => s.toList.map (fun c => .pyStr (String.mk [c]))
  | .pyList l => l
  | _ => []

/-- The loop of `addSubscribers`: each step runs `_add_subscriber` on the
current state and folds the per-member flag into the overall flag by
`existed_flags = existed_flags and existed_flag`. -/
def addLoop (resolve : String → String) :
    List PyVal → Option SubsProp → Bool →
    Except RTCError (Bool × Option SubsProp)
  | [], st, fl => .ok (fl, st)
  | e :: rest, st, fl =>
      match add_subscriber resolve e st with
      | .error err => .error err
      | .ok (f, st1) => addLoop resolve rest st1 (fl && f)

/-- The loop of `removeSubscribers`: each step runs `_remove_subscriber`
and folds the flag by `missing_flags = missing_flags and missing_flag`. -/
def rmLoop (resolve : String → String) :
    List PyVal → Option SubsProp → Bool →
    Except RTCError (Bool × Option SubsProp)
  | [], st, fl => .ok (fl, st)
  | e :: rest, st, fl =>
      match remove_subscriber resolve e st with
      | .error err => .error err
      | .ok (f, st1) => rmLoop resolve rest st1 (fl && f)

/-- `Workitem.addSubscribers(emails_list)`: iterability check (raising
`BadValue` before any request), one GET, the per-email loop with the
overall flag initialized to `False` (the source's `existed_flags = False`),
then the conditional PUT. -/
def addSubscribers (resolve : String → String) (emailsList : PyVal)
    (server : Option SubsProp) : Trace :=
  if hasIter emailsList then
    runBatch (addLoop resolve (toIterable emailsList) server false) server
  else ⟨0, 0, .error .badValue⟩

/-- `Workitem.removeSubscribers(emails_list)`: iterability check, one GET,
the per-email loop with the overall flag initialized to `True` (the
source's `missing_flags = True`), then the conditional PUT. -/
def removeSubscribers (resolve : String → String) (emailsList : PyVal)
    (server : Option SubsProp) : Trace :=
  if hasIter emailsList then
    runBatch (rmLoop resolve (toIterable emailsList) server true) server
  else ⟨0, 0, .error .badValue⟩

/-- The member URL a (string) email resolves to. -/
def resolveEmail (resolve : String → String) : PyVal → String
  | .pyStr s => resolve s
  | _ => ""

/-- Every email of the batch resolves to a URL absent from the current
member collection (executable form, for the no-op-skip condition). -/
def allAbsent (resolve : String → String) (el : List PyVal)
    (st : Option SubsProp) : Bool :=
  el.all (fun e => !(scanExist (resolveEmail resolve e) (members st)))

/-- The state `_add_subscriber` builds when the member is new: absent
becomes a bare mapping, a bare mapping becomes a two-element list, a list
gets the new member appended. -/
def pushMember (u : String) : Option SubsProp → Option SubsProp
  | none => some (.one u)
  | some (.one u0) => some (.many [u0, u])
  | some (.many us) => some (.many (us ++ [u]))

/-- The state `_remove_subscriber` builds when the member is present: a
bare mapping is deleted, a list loses the first matching entry and
collapses to a bare mapping when one entry remains. -/
def dropMember (u : String) : Option SubsProp → Option SubsProp
  | none => none
  | some (.one _) => none
  | some (.many us) =>
      match (rmScan u us).2 with
      | [x] => some (.one x)
      | us2 => some (.many us2)

/-- Digit list to number, most significant first. -/
def digitsToNat (l : List Char) : Nat :=
  l.foldl (fun a c => a * 10 + (c.toNat - '0'.toNat)) 0

/-- Python `int()` applied to a string (optional sign, then digits);
`none` models the raised `ValueError`. -/
def pyIntOfChars : List Char → Option Int
  | [] => none
  | '-' :: rest =>
      if !rest.isEmpty && rest.all Char.isDigit then
        some (-(digitsToNat rest : Int))
      else none
  | '+' :: rest =>
      if !rest.isEmpty && rest.all Char.isDigit then
        some ((digitsToNat rest : Int))
      else none
  | l =>
      if l.all Char.isDigit then some ((digitsToNat l : Int))
      else none

/-- Python `int()` applied to a string. -/
def pyIntOfStr (s : String) : Option Int :=
  pyIntOfChars s.toList

/-- `isinstance(x, bool)`. -/
def isPyBool : PyVal → Bool
  | .pyBool _ => true
  | _ => false

/-- Whether a Python value is coercible to an integer by `int()` (the
notion the specification's "not coercible to an integer" refers to):
booleans and ints always are, strings when they spell an integer, other
values are not. -/
def intCoercible : PyVal → Option Int
  | .pyBool b => some (if b then 1 else 0)
  | .pyInt n => some n
  | .pyStr s => pyIntOfStr s
  | .pyList _ => none

/-- The comment-id validation of `getCommentByID`: booleans are rejected,
strings are coerced by `int()` (a failed coercion raises `BadValue`),
remaining non-int values raise `BadValue`. -/
def checkCommentId : PyVal → Except RTCError Int
  | .pyBool _ => .error .badValue
  | .pyStr s =>
      match pyIntOfStr s with
      | some n => .ok n
      | none => .error .badValue
  | .pyInt n => .ok n
  | .pyList _ => .error .badValue

/-- `"/".join([self.url, "rtc_cm:comments/%s" % comment_id])`. -/
def commentUrlOfId (wurl : String) (n : Int) : String :=
  wurl ++ "/rtc_cm:comments/" ++ toString n

/-- `Workitem.getCommentByID(comment_id)`: id validation before any
request; then the `Comment` construction fetches the comment URL
(`fetchOk = false` models the transport raising `HTTPError`, which the
method catches and turns into `BadValue`).  Returns the number of
transport invocations and the URL the returned comment is bound to. -/
def getCommentByID (wurl : String) (fetchOk : Bool) (cid : PyVal) :
    Nat × Except RTCError String :=
  match checkCommentId cid with
  | .error e => (0, .error e)
  | .ok n =>
      if fetchOk then (1, .ok (commentUrlOfId wurl n))
      else (1, .error .badValue)

/-- `"/".join([self.url, "rtc_cm:comments"])`. -/
def commentsUrl (wurl : String) : String :=
  wurl ++ "/rtc_cm:comments"

/-- The `origin_comment` RDF template before the `{0}` placeholder. -/
def commentPre : String :=
  "\n<rdf:RDF\n    xmlns:rdf=\"http://www.w3.org/1999/02/22-rdf-syntax-ns#\"\n    xmlns:rtc_ext=\"http://jazz.net/xmlns/prod/jazz/rtc/ext/1.0/\"\n    xmlns:rtc_cm=\"http://jazz.net/xmlns/prod/jazz/rtc/cm/1.0/\"\n    xmlns:oslc_cm=\"http://open-services.net/ns/cm#\"\n    xmlns:dcterms=\"http://purl.org/dc/terms/\"\n    xmlns:oslc_cmx=\"http://open-services.net/ns/cm-x#\"\n    xmlns:oslc=\"http://open-services.net/ns/core#\">\n  <rdf:Description rdf:about=\""

/-- The `origin_comment` RDF template between the `{0}` and `{1}`
placeholders. -/
def commentMid : String :=
  "\">\n    <rdf:type rdf:resource=\"http://open-services.net/ns/core#Comment\"/>\n    <dcterms:description rdf:parseType=\"Literal\">"

/-- The `origin_comment` RDF template after the `{1}` placeholder. -/
def commentPost : String :=
  "</dcterms:description>\n  </rdf:Description>\n</rdf:RDF>\n"

/-- `origin_comment.format(comment_url, msg)`: plain string interpolation
of the comment URL and the raw message text into the template. -/
def addCommentBody (commentUrl msg : String) : String :=
  commentPre ++ commentUrl ++ commentMid ++ msg ++ commentPost

/-- `Workitem.addComment(msg)` after the fetch of the comments collection
reported `totalCnt` as `@oslc_cm:totalCount`: returns the URL the new
`Comment` object is bound to and the POSTed request body. -/
def addComment (wurl totalCnt msg : String) : String × String :=
  let curl := commentsUrl wurl ++ "/" ++ totalCnt
  (curl, addCommentBody curl msg)

/-- Modelled from the spec: `rtcclient.models.Comment` is not under
`src/`; per the spec (§3), a resource identifier is derived from the
URL's final path segment. -/
def commentIdentifier (url : String) : String :=
  String.mk ((url.toList.reverse.takeWhile (fun c => c != '/')).reverse)

/-- The transport-escaping of literal XML content the specification
requires (`&`, `<`, `>` become entity references). -/
def escapeXml (s : String) : String :=
  String.mk (s.toList.foldr
    (fun c acc =>
      match c with
      | '&' => '&' :: 'a' :: 'm' :: 'p' :: ';' :: acc
      | '<' => '&' :: 'l' :: 't' :: ';' :: acc
      | '>' => '&' :: 'g' :: 't' :: ';' :: acc
      | c => c :: acc) [])

/-- A necessary condition for text inserted as the character data of an
XML element to leave the document well-formed: no raw `<` or `&`. -/
def literalContentOk (s : String) : Bool :=
  !(s.toList.contains '<') && !(s.toList.contains '&')

/-- Directory lookup used by the batch-add counterexample input. -/
def resolveAB : String → String :=
  fun s => if s = "a@x.com" then "http://jazz/users/a" else "http://jazz/users/b"

theorem scanExist_eq (u : String) (us : List String) :
    scanExist u us = true ↔ u ∈ us := by
  induction us with
  | nil => simp [scanExist]
  | cons x rest ih =>
      by_cases hx : x = u
      · simp [scanExist, hx]
      · simp only [scanExist, if_neg hx, ih, List.mem_cons]
        constructor
        · exact fun h => Or.inr h
        · rintro (h | h)
          · exact absurd h.symm hx
          · exact h

theorem rmScan_missing (u : String) (us : List String) :
    (rmScan u us).1 = true ↔ u ∉ us := by
  induction us with
  | nil => simp [rmScan]
  | cons x rest ih =>
      by_cases hx : x = u
      · simp [rmScan, hx]
      · simp only [rmScan, if_neg hx, ih, List.mem_cons]
        constructor
        · rintro h (h2 | h2)
          · exact hx h2.symm
          · exact h h2
        · exact fun h h2 => h (Or.inr h2)

theorem rmScan_length (u : String) (us : List String) (h : u ∈ us) :
    (rmScan u us).2.length + 1 = us.length := by
  induction us with
  | nil => cases h
  | cons x rest ih =>
      by_cases hx : x = u
      · simp [rmScan, hx]
      · have hm : u ∈ rest := by
          rcases List.mem_cons.mp h with h2 | h2
          · exact absurd h2.symm hx
          · exact h2
        simp only [rmScan, if_neg hx, List.length_cons]
        rw [← ih hm]

theorem add_subscriber_valid (resolve : String → String) (s : String)
    (st : Option SubsProp) (hs : hasAt s.toList = true) :
    add_subscriber resolve (.pyStr s) st =
      if resolve s ∈ members st then .ok (true, st)
      else .ok (false, pushMember (resolve s) st) := by
  have hs2 : hasAt s.data = true := hs
  cases st with
  | none => simp [add_subscriber, hs2, members, pushMember]
  | some sp =>
      cases sp with
      | one u0 =>
          by_cases h : u0 = resolve s
          · simp [add_subscriber, hs2, members, pushMember, h]
          · have hmem : resolve s ∉ members (some (SubsProp.one u0)) := by
              simp only [members, List.mem_singleton]
              exact fun h2 => h h2.symm
            rw [if_neg hmem]
            simp [add_subscriber, hs2, pushMember, h]
      | many us =>
          by_cases h : resolve s ∈ us
          · have hmem : resolve s ∈ members (some (SubsProp.many us)) := h
            rw [if_pos hmem]
            simp [add_subscriber, hs2, (scanExist_eq _ _).mpr h]
          · have hmem : resolve s ∉ members (some (SubsProp.many us)) := h
            rw [if_neg hmem]
            have hf : scanExist (resolve s) us = false := by
              cases hsc : scanExist (resolve s) us with
              | false => rfl
              | true => exact absurd ((scanExist_eq _ _).mp hsc) h
            simp [add_subscriber, hs2, hf, pushMember]

theorem remove_subscriber_valid (resolve : String → String) (s : String)
    (st : Option SubsProp) (hs : hasAt s.toList = true) :
    remove_subscriber resolve (.pyStr s) st =
      if resolve s ∈ members st then .ok (false, dropMember (resolve s) st)
      else .ok (true, st) := by
  have hs2 : hasAt s.data = true := hs
  cases st with
  | none => simp [remove_subscriber, hs2, members, dropMember]
  | some sp =>
      cases sp with
      | one u0 =>
          by_cases h : u0 = resolve s
          · simp [remove_subscriber, hs2, members, dropMember, h]
          · have hmem : resolve s ∉ members (some (SubsProp.one u0)) := by
              simp only [members, List.mem_singleton]
              exact fun h2 => h h2.symm
            rw [if_neg hmem]
            simp [remove_subscriber, hs2, h]
      | many us =>
          by_cases h : resolve s ∈ us
          · have hmem : resolve s ∈ members (some (SubsProp.many us)) := h
            rw [if_pos hmem]
            have hf : (rmScan (resolve s) us).1 = false := by
              cases hsc : (rmScan (resolve s) us).1 with
              | false => rfl
              | true => exact absurd h ((rmScan_missing _ _).mp hsc)
            rcases h2 : (rmScan (resolve s) us).2 with _ | ⟨x, _ | ⟨y, t⟩⟩ <;>
              simp [remove_subscriber, hs2, hf, dropMember, h2]
          · have hmem : resolve s ∉ members (some (SubsProp.many us)) := h
            rw [if_neg hmem]
            simp [remove_subscriber, hs2, (rmScan_missing _ _).mpr h]

theorem add_subscriber_ok (resolve : String → String) (e : PyVal)
    (st : Option SubsProp) (f : Bool) (st1 : Option SubsProp)
    (h : add_subscriber resolve e st = .ok (f, st1)) :
    ∃ s, e = .pyStr s ∧ hasAt s.toList = true ∧
      ((f = true ∧ st1 = st ∧ resolve s ∈ members st) ∨
       (f = false ∧ st1 = pushMember (resolve s) st ∧
        resolve s ∉ members st)) := by
  cases e with
  | pyStr s =>
      have hs : hasAt s.toList = true := by
        cases hv : hasAt s.data with
        | false => rw [add_subscriber] at h; simp [hv] at h
        | true => exact hv
      refine ⟨s, rfl, hs, ?_⟩
      rw [add_subscriber_valid resolve s st hs] at h
      by_cases hm : resolve s ∈ members st
      · rw [if_pos hm] at h
        cases h
        exact Or.inl ⟨rfl, rfl, hm⟩
      · rw [if_neg hm] at h
        cases h
        exact Or.inr ⟨rfl, rfl, hm⟩
  | pyInt n => simp [add_subscriber] at h
  | pyBool b => simp [add_subscriber] at h
  | pyList l => simp [add_subscriber] at h

theorem remove_subscriber_ok (resolve : String → String) (e : PyVal)
    (st : Option SubsProp) (f : Bool) (st1 : Option SubsProp)
    (h : remove_subscriber resolve e st = .ok (f, st1)) :
    ∃ s, e = .pyStr s ∧ hasAt s.toList = true ∧
      ((f = true ∧ st1 = st ∧ resolve s ∉ members st) ∨
       (f = false ∧ st1 = dropMember (resolve s) st ∧
        resolve s ∈ members st)) := by
  cases e with
  | pyStr s =>
      have hs : hasAt s.toList = true := by
        cases hv : hasAt s.data with
        | false => rw [remove_subscriber] at h; simp [hv] at h
        | true => exact hv
      refine ⟨s, rfl, hs, ?_⟩
      rw [remove_subscriber_valid resolve s st hs] at h
      by_cases hm : resolve s ∈ members st
      · rw [if_pos hm] at h
        cases h
        exact Or.inr ⟨rfl, rfl, hm⟩
      · rw [if_neg hm] at h
        cases h
        exact Or.inl ⟨rfl, rfl, hm⟩
  | pyInt n => simp [remove_subscriber] at h
  | pyBool b => simp [remove_subscriber] at h
  | pyList l => simp [remove_subscriber] at h

theorem members_pushMember (u : String) (st : Option SubsProp) :
    members (pushMember u st) = members st ++ [u] := by
  rcases st with _ | ⟨u0⟩ | ⟨us⟩ <;> simp [members, pushMember]

theorem mem_pushMember (u : String) (st : Option SubsProp) :
    u ∈ members (pushMember u st) := by
  rw [members_pushMember]
  exact List.mem_append_right _ (List.mem_singleton.mpr rfl)

theorem wellShaped_pushMember (u : String) (st : Option SubsProp)
    (h : wellShaped st) : wellShaped (pushMember u st) := by
  rcases st with _ | ⟨u0⟩ | ⟨us⟩
  · simp [pushMember, wellShaped]
  · simp [pushMember, wellShaped]
  · simp only [pushMember, wellShaped, List.length_append,
      List.length_singleton] at h ⊢
    omega

theorem wellShaped_dropMember (u : String) (st : Option SubsProp)
    (hw : wellShaped st) (hm : u ∈ members st) :
    wellShaped (dropMember u st) := by
  rcases st with _ | ⟨u0⟩ | ⟨us⟩
  · simp [dropMember, wellShaped]
  · simp [dropMember, wellShaped]
  · have hm2 : u ∈ us := hm
    have hlen : (rmScan u us).2.length + 1 = us.length := rmScan_length u us hm2
    have hw2 : 2 ≤ us.length := hw
    rcases h2 : (rmScan u us).2 with _ | ⟨x, _ | ⟨y, t⟩⟩
    · rw [h2] at hlen
      simp at hlen
      omega
    · simp [dropMember, h2, wellShaped]
    · simp only [dropMember, h2, wellShaped]
      simp

theorem wellShaped_shapeOk (st : Option SubsProp) (h : wellShaped st) :
    shapeOk st := by
  rcases st with _ | ⟨u0⟩ | ⟨us⟩
  · exact ⟨fun _ => rfl, fun u h2 => by simp [members] at h2,
      fun h2 => by simp [members] at h2⟩
  · refine ⟨fun h2 => by simp [members] at h2, fun u h2 => ?_, fun h2 => ?_⟩
    · simp only [members, List.cons.injEq, and_true] at h2
      rw [h2]
    · simp [members] at h2
  · have hw2 : 2 ≤ us.length := h
    refine ⟨fun h2 => ?_, fun u h2 => ?_, fun _ => ⟨us, hw2, rfl⟩⟩
    · simp only [members] at h2
      rw [h2] at hw2
      simp at hw2
    · simp only [members] at h2
      rw [h2] at hw2
      simp at hw2

theorem add_subscriber_shape (resolve : String → String) (e : PyVal)
    (st : Option SubsProp) (f : Bool) (st1 : Option SubsProp)
    (hw : wellShaped st) (h : add_subscriber resolve e st = .ok (f, st1)) :
    wellShaped st1 := by
  obtain ⟨s, _, _, hc⟩ := add_subscriber_ok resolve e st f st1 h
  rcases hc with ⟨_, h1, _⟩ | ⟨_, h1, _⟩
  · rw [h1]; exact hw
  · rw [h1]; exact wellShaped_pushMember _ _ hw

theorem remove_subscriber_shape (resolve : String → String) (e : PyVal)
    (st : Option SubsProp) (f : Bool) (st1 : Option SubsProp)
    (hw : wellShaped st) (h : remove_subscriber resolve e st = .ok (f, st1)) :
    wellShaped st1 := by
  obtain ⟨s, _, _, hc⟩ := remove_subscriber_ok resolve e st f st1 h
  rcases hc with ⟨_, h1, _⟩ | ⟨_, h1, hm⟩
  · rw [h1]; exact hw
  · rw [h1]; exact wellShaped_dropMember _ _ hw hm

theorem addLoop_shape (resolve : String → String) (l : List PyVal) :
    ∀ st fl f st1, wellShaped st →
      addLoop resolve l st fl = .ok (f, st1) → wellShaped st1 := by
  induction l with
  | nil =>
      intro st fl f st1 hw h
      rw [addLoop] at h
      cases h
      exact hw
  | cons e rest ih =>
      intro st fl f st1 hw h
      rw [addLoop] at h
      cases ha : add_subscriber resolve e st with
      | error err => rw [ha] at h; cases h
      | ok p =>
          rw [ha] at h
          exact ih p.2 (fl && p.1) f st1
            (add_subscriber_shape resolve e st p.1 p.2 hw ha) h

theorem rmLoop_shape (resolve : String → String) (l : List PyVal) :
    ∀ st fl f st1, wellShaped st →
      rmLoop resolve l st fl = .ok (f, st1) → wellShaped st1 := by
  induction l with
  | nil =>
      intro st fl f st1 hw h
      rw [rmLoop] at h
      cases h
      exact hw
  | cons e rest ih =>
      intro st fl f st1 hw h
      rw [rmLoop] at h
      cases ha : remove_subscriber resolve e st with
      | error err => rw [ha] at h; cases h
      | ok p =>
          rw [ha] at h
          exact ih p.2 (fl && p.1) f st1
            (remove_subscriber_shape resolve e st p.1 p.2 hw ha) h

theorem runBatch_gets (r : Except RTCError (Bool × Option SubsProp))
    (server : Option SubsProp) : (runBatch r server).gets = 1 := by
  rcases r with e | ⟨_ | _, st⟩ <;> rfl

theorem runBatch_puts_le (r : Except RTCError (Bool × Option SubsProp))
    (server : Option SubsProp) : (runBatch r server).puts ≤ 1 := by
  rcases r with e | ⟨_ | _, st⟩ <;> simp [runBatch]

theorem runBatch_result_ok (r : Except RTCError (Bool × Option SubsProp))
    (server st1 : Option SubsProp)
    (h : (runBatch r server).result = .ok st1) :
    st1 = server ∨ r = .ok (false, st1) := by
  rcases r with e | ⟨b, st⟩
  · simp [runBatch] at h
  · cases b with
    | true =>
        simp only [runBatch, Except.ok.injEq] at h
        exact Or.inl h.symm
    | false =>
        simp only [runBatch, Except.ok.injEq] at h
        rw [h]
        exact Or.inr rfl

theorem scanExist_false (u : String) (us : List String) :
    scanExist u us = false ↔ u ∉ us := by
  constructor
  · intro h hm
    rw [(scanExist_eq u us).mpr hm] at h
    cases h
  · intro h
    cases hsc : scanExist u us with
    | false => rfl
    | true => exact absurd ((scanExist_eq u us).mp hsc) h

theorem allAbsent_iff (resolve : String → String) (el : List PyVal)
    (st : Option SubsProp) :
    allAbsent resolve el st = true ↔
      ∀ e ∈ el, resolveEmail resolve e ∉ members st := by
  rw [allAbsent, List.all_eq_true]
  constructor
  · intro h e he
    have h2 := h e he
    rw [Bool.not_eq_true'] at h2
    exact (scanExist_false _ _).mp h2
  · intro h e he
    rw [Bool.not_eq_true']
    exact (scanExist_false _ _).mpr (h e he)

theorem isValidEmail_str (e : PyVal) (h : isValidEmail e = true) :
    ∃ s, e = .pyStr s ∧ hasAt s.toList = true := by
  cases e with
  | pyStr s => exact ⟨s, rfl, h⟩
  | pyInt n => cases h
  | pyBool b => cases h
  | pyList l => cases h

theorem rmLoop_acc (resolve : String → String) (l : List PyVal) :
    ∀ st fl st1, rmLoop resolve l st fl = .ok (true, st1) → fl = true := by
  induction l with
  | nil =>
      intro st fl st1 h
      rw [rmLoop] at h
      cases h
      rfl
  | cons e rest ih =>
      intro st fl st1 h
      rw [rmLoop] at h
      cases ha : remove_subscriber resolve e st with
      | error err => rw [ha] at h; cases h
      | ok p =>
          rw [ha] at h
          have h2 := ih p.2 (fl && p.1) st1 h
          exact (Bool.and_eq_true _ _).mp h2 |>.1

theorem rmLoop_true_absent (resolve : String → String) (l : List PyVal) :
    ∀ st fl st1, rmLoop resolve l st fl = .ok (true, st1) →
      st1 = st ∧ ∀ e ∈ l, resolveEmail resolve e ∉ members st := by
  induction l with
  | nil =>
      intro st fl st1 h
      rw [rmLoop] at h
      cases h
      exact ⟨rfl, by intro e he; cases he⟩
  | cons e rest ih =>
      intro st fl st1 h
      rw [rmLoop] at h
      cases ha : remove_subscriber resolve e st with
      | error err => rw [ha] at h; cases h
      | ok p =>
          rw [ha] at h
          have hacc := rmLoop_acc resolve rest p.2 (fl && p.1) st1 h
          have hp1 : p.1 = true := ((Bool.and_eq_true _ _).mp hacc).2
          obtain ⟨s, he, hv, hc⟩ :=
            remove_subscriber_ok resolve e st p.1 p.2
              (by rw [ha])
          rcases hc with ⟨_, hst, hm⟩ | ⟨hf, _, _⟩
          · have h3 : rmLoop resolve rest p.2 (fl && p.1) = .ok (true, st1) := h
            rw [hst] at h3
            obtain ⟨h1, h2⟩ := ih st (fl && p.1) st1 h3
            refine ⟨h1, ?_⟩
            intro x hx
            rcases List.mem_cons.mp hx with hx | hx
            · rw [hx, he]
              exact hm
            · exact h2 x hx
          · rw [hf] at hp1
            cases hp1

theorem rmLoop_all_absent (resolve : String → String) (l : List PyVal) :
    ∀ st fl, (∀ e ∈ l, isValidEmail e = true) →
      (∀ e ∈ l, resolveEmail resolve e ∉ members st) →
      rmLoop resolve l st fl = .ok (fl, st) := by
  induction l with
  | nil => intro st fl _ _; rw [rmLoop]
  | cons e rest ih =>
      intro st fl hv ha
      obtain ⟨s, he, hss⟩ := isValidEmail_str e (hv e (List.mem_cons_self e rest))
      have hm : resolve s ∉ members st := by
        have := ha e (List.mem_cons_self e rest)
        rw [he] at this
        exact this
      rw [rmLoop, he, remove_subscriber_valid resolve s st hss, if_neg hm]
      show rmLoop resolve rest st (fl && true) = .ok (fl, st)
      rw [Bool.and_true]
      exact ih st fl (fun x hx => hv x (List.mem_cons_of_mem e hx))
        (fun x hx => ha x (List.mem_cons_of_mem e hx))

theorem rmLoop_ok (resolve : String → String) (l : List PyVal) :
    ∀ st fl, (∀ e ∈ l, isValidEmail e = true) →
      ∃ p, rmLoop resolve l st fl = .ok p := by
  induction l with
  | nil => intro st fl _; exact ⟨(fl, st), by rw [rmLoop]⟩
  | cons e rest ih =>
      intro st fl hv
      obtain ⟨s, he, hss⟩ := isValidEmail_str e (hv e (List.mem_cons_self e rest))
      rw [he]
      by_cases hm : resolve s ∈ members st
      · obtain ⟨p, hp⟩ := ih (dropMember (resolve s) st) (fl && false)
          (fun x hx => hv x (List.mem_cons_of_mem e hx))
        refine ⟨p, ?_⟩
        rw [rmLoop, remove_subscriber_valid resolve s st hss, if_pos hm]
        exact hp
      · obtain ⟨p, hp⟩ := ih st (fl && true)
          (fun x hx => hv x (List.mem_cons_of_mem e hx))
        refine ⟨p, ?_⟩
        rw [rmLoop, remove_subscriber_valid resolve s st hss, if_neg hm]
        exact hp

theorem add_subscriber_invalid (resolve : String → String) (e : PyVal)
    (st : Option SubsProp) (h : isValidEmail e = false) :
    add_subscriber resolve e st = .error .badValue := by
  cases e with
  | pyStr s =>
      have h2 : hasAt s.data = false := h
      simp [add_subscriber, h2]
  | pyInt n => rfl
  | pyBool b => rfl
  | pyList l => rfl

theorem remove_subscriber_invalid (resolve : String → String) (e : PyVal)
    (st : Option SubsProp) (h : isValidEmail e = false) :
    remove_subscriber resolve e st = .error .badValue := by
  cases e with
  | pyStr s =>
      have h2 : hasAt s.data = false := h
      simp [remove_subscriber, h2]
  | pyInt n => rfl
  | pyBool b => rfl
  | pyList l => rfl

theorem toList_append (a b : String) :
    (a ++ b).toList = a.toList ++ b.toList := by
  cases a with
  | mk la => cases b with
    | mk lb => rfl

theorem mk_toList (s : String) : String.mk s.toList = s := by
  cases s with
  | mk l => rfl

theorem takeWhile_ne_append (l t : List Char)
    (h : ∀ c ∈ l, (c != '/') = true) :
    (l ++ '/' :: t).takeWhile (fun c => c != '/') = l := by
  induction l with
  | nil => simp
  | cons c cs ih =>
      have hc : (c != '/') = true := h c (List.mem_cons_self c cs)
      simp only [List.cons_append, List.takeWhile_cons, hc, if_true]
      rw [ih (fun x hx => h x (List.mem_cons_of_mem c hx))]

theorem commentIdentifier_append (a cnt : String) (h : '/' ∉ cnt.toList) :
    commentIdentifier (a ++ "/" ++ cnt) = cnt := by
  have h1 : (a ++ "/" ++ cnt).toList = a.toList ++ '/' :: cnt.toList := by
    rw [toList_append, toList_append, List.append_assoc]
    rfl
  rw [commentIdentifier, h1, List.reverse_append, List.reverse_cons,
    List.append_assoc, List.singleton_append, takeWhile_ne_append]
  · rw [List.reverse_reverse, mk_toList]
  · intro c hc
    rw [List.mem_reverse] at hc
    have hne : c ≠ '/' := fun he => h (he ▸ hc)
    simp [hne]

/-- C1: evaluation of `addSubscribers` at a batch in which every supplied
email already identifies a current subscriber.  Because the source
initializes `existed_flags = False` and only ANDs per-member flags into
it, the skip branch is unreachable and the call still issues one PUT
(rewriting the unchanged member list), where the claim and the method's
own docstring say zero writes. -/
theorem addSubscribers_all_present_still_writes :
    addSubscribers resolveAB
        (.pyList [.pyStr "a@x.com", .pyStr "b@x.com"])
        (some (.many ["http://jazz/users/a", "http://jazz/users/b"]))
      = ⟨1, 1, .ok (some (.many
          ["http://jazz/users/a", "http://jazz/users/b"]))⟩ := rfl

/-- C2 (counterexample): with a malformed email, `addSubscriber` still
performs the initial fetch — the transport is invoked once (one GET), not
zero times — before `BadValue` is raised. -/
theorem addSubscriber_invalid_email_counterexample :
    addSubscriber (fun _ => "") (.pyStr "bademail") none
        = ⟨1, 0, .error .badValue⟩ ∧
    (addSubscriber (fun _ => "") (.pyStr "bademail") none).gets ≠ 0 :=
  ⟨rfl, by decide⟩

/-- C2 (amended): for all four subscriber mutations, an email that is not
a string or has no `@` raises `BadValue` before any WRITE — the call
issues the one initial GET and zero PUTs. -/
theorem invalid_email_badValue_no_write (resolve : String → String)
    (e : PyVal) (st : Option SubsProp) (h : isValidEmail e = false) :
    addSubscriber resolve e st = ⟨1, 0, .error .badValue⟩ ∧
    removeSubscriber resolve e st = ⟨1, 0, .error .badValue⟩ ∧
    addSubscribers resolve (.pyList [e]) st = ⟨1, 0, .error .badValue⟩ ∧
    removeSubscribers resolve (.pyList [e]) st
      = ⟨1, 0, .error .badValue⟩ := by
  have ha := add_subscriber_invalid resolve e st h
  have hr := remove_subscriber_invalid resolve e st h
  refine ⟨?_, ?_, ?_, ?_⟩
  · show runBatch (add_subscriber resolve e st) st = _
    rw [ha]
    rfl
  · show runBatch (remove_subscriber resolve e st) st = _
    rw [hr]
    rfl
  · show runBatch (addLoop resolve [e] st false) st = _
    rw [addLoop, ha]
    rfl
  · show runBatch (rmLoop resolve [e] st true) st = _
    rw [rmLoop, hr]
    rfl

theorem invalid_email_badValue_no_write_witness :
    addSubscriber (fun _ => "u") (.pyStr "nope") none
        = ⟨1, 0, .error .badValue⟩ ∧
    removeSubscriber (fun _ => "u") (.pyStr "nope") none
        = ⟨1, 0, .error .badValue⟩ ∧
    addSubscribers (fun _ => "u") (.pyList [.pyStr "nope"]) none
        = ⟨1, 0, .error .badValue⟩ ∧
    removeSubscribers (fun _ => "u") (.pyList [.pyStr "nope"]) none
        = ⟨1, 0, .error .badValue⟩ :=
  invalid_email_badValue_no_write (fun _ => "u") (.pyStr "nope") none rfl

/-- C3 (counterexample): when the transport reports an HTTP error for the
comment URL, `getCommentByID` raises `BadValue` — not a NotFound-class
error as claimed. -/
theorem getCommentByID_transport_error_counterexample :
    (getCommentByID "http://test/wi/1" false (.pyInt 0)).2
        = .error .badValue ∧
    RTCError.badValue ≠ RTCError.notFound :=
  ⟨rfl, by decide⟩

/-- C3 (amended): for every comment id passing validation, a transport
HTTP error during the comment fetch is translated into `BadValue`
(message `Comment N does not exist`), after one transport invocation. -/
theorem getCommentByID_transport_error_badValue (wurl : String)
    (cid : PyVal) (n : Int) (h : checkCommentId cid = .ok n) :
    getCommentByID wurl false cid = (1, .error .badValue) := by
  rw [getCommentByID, h]
  rfl

theorem getCommentByID_transport_error_badValue_witness :
    getCommentByID "http://test/wi/1" false (.pyInt 0)
      = (1, .error .badValue) :=
  getCommentByID_transport_error_badValue "http://test/wi/1" (.pyInt 0) 0 rfl

/-- C4: `getCommentByID` raises `BadValue` with zero transport calls
exactly for boolean ids and ids not coercible to an integer; integers
(including `-1`) always reach the network, and integer-valued strings are
coerced by `int()`. -/
theorem getCommentByID_badValue_classification (wurl : String)
    (fetchOk : Bool) (v : PyVal) :
    (((getCommentByID wurl fetchOk v).1 = 0 ∧
      (getCommentByID wurl fetchOk v).2 = .error .badValue) ↔
      (isPyBool v = true ∨ intCoercible v = none)) ∧
    getCommentByID wurl fetchOk (.pyInt (-1))
      = (1, if fetchOk then .ok (commentUrlOfId wurl (-1))
            else .error .badValue) ∧
    checkCommentId (.pyStr "3") = .ok 3 ∧
    checkCommentId (.pyStr "-1") = .ok (-1) ∧
    checkCommentId (.pyStr "abc") = .error .badValue ∧
    checkCommentId (.pyBool true) = .error .badValue := by
  refine ⟨?_, ?_, ?_, ?_, ?_, ?_⟩
  · cases v with
    | pyStr s =>
        cases hp : pyIntOfStr s with
        | some n =>
            cases fetchOk <;>
              simp [getCommentByID, checkCommentId, intCoercible,
                isPyBool, hp]
        | none =>
            simp [getCommentByID, checkCommentId, intCoercible,
              isPyBool, hp]
    | pyInt n =>
        cases fetchOk <;>
          simp [getCommentByID, checkCommentId, intCoercible, isPyBool]
    | pyBool b =>
        simp [getCommentByID, checkCommentId, intCoercible, isPyBool]
    | pyList l =>
        simp [getCommentByID, checkCommentId, intCoercible, isPyBool]
  · cases fetchOk <;> rfl
  · rfl
  · rfl
  · rfl
  · rfl

/-- C5: after any subscriber mutation on a well-shaped state, the state
written back (or kept) respects the absent/singleton/plural wire
convention: zero members means the property is deleted, one member is a
bare mapping, two or more members are a list. -/
theorem subscribers_wire_shape (resolve : String → String) (e el : PyVal)
    (st sa sr sba sbr : Option SubsProp) (hw : wellShaped st)
    (ha : (addSubscriber resolve e st).result = .ok sa)
    (hr : (removeSubscriber resolve e st).result = .ok sr)
    (hba : (addSubscribers resolve el st).result = .ok sba)
    (hbr : (removeSubscribers resolve el st).result = .ok sbr) :
    shapeOk sa ∧ shapeOk sr ∧ shapeOk sba ∧ shapeOk sbr := by
  have hsOk := wellShaped_shapeOk st hw
  refine ⟨?_, ?_, ?_, ?_⟩
  · rcases runBatch_result_ok (add_subscriber resolve e st) st sa ha
      with h | h
    · rw [h]; exact hsOk
    · exact wellShaped_shapeOk sa
        (add_subscriber_shape resolve e st false sa hw h)
  · rcases runBatch_result_ok (remove_subscriber resolve e st) st sr hr
      with h | h
    · rw [h]; exact hsOk
    · exact wellShaped_shapeOk sr
        (remove_subscriber_shape resolve e st false sr hw h)
  · cases hit : hasIter el with
    | false =>
        rw [addSubscribers, if_neg (by rw [hit]; exact Bool.false_ne_true)]
          at hba
        exact Except.noConfusion hba
    | true =>
        rw [addSubscribers, if_pos (by rw [hit])] at hba
        rcases runBatch_result_ok (addLoop resolve (toIterable el) st false)
            st sba hba with h | h
        · rw [h]; exact hsOk
        · exact wellShaped_shapeOk sba
            (addLoop_shape resolve (toIterable el) st false false sba hw h)
  · cases hit : hasIter el with
    | false =>
        rw [removeSubscribers, if_neg (by rw [hit]; exact Bool.false_ne_true)]
          at hbr
        exact Except.noConfusion hbr
    | true =>
        rw [removeSubscribers, if_pos (by rw [hit])] at hbr
        rcases runBatch_result_ok (rmLoop resolve (toIterable el) st true)
            st sbr hbr with h | h
        · rw [h]; exact hsOk
        · exact wellShaped_shapeOk sbr
            (rmLoop_shape resolve (toIterable el) st true false sbr hw h)

theorem subscribers_wire_shape_witness :
    shapeOk (some (SubsProp.one "u")) ∧ shapeOk (none : Option SubsProp) ∧
    shapeOk (some (SubsProp.one "u")) ∧ shapeOk (none : Option SubsProp) :=
  subscribers_wire_shape (fun _ => "u") (.pyStr "a@x")
    (.pyList [.pyStr "a@x"]) none (some (.one "u")) none
    (some (.one "u")) none trivial rfl rfl rfl rfl

/-- C6: the new comment's identifier equals the total count fetched just
before the write, and the returned comment is bound to the comments URL
extended by that count. -/
theorem addComment_position (wurl cnt msg : String)
    (h : '/' ∉ cnt.toList) :
    (addComment wurl cnt msg).1 = commentsUrl wurl ++ "/" ++ cnt ∧
    commentIdentifier (addComment wurl cnt msg).1 = cnt := by
  constructor
  · rfl
  · show commentIdentifier (commentsUrl wurl ++ "/" ++ cnt) = cnt
    exact commentIdentifier_append (commentsUrl wurl) cnt h

theorem addComment_position_witness :
    (addComment "http://test/wi/1" "3" "note").1
        = commentsUrl "http://test/wi/1" ++ "/" ++ "3" ∧
    commentIdentifier (addComment "http://test/wi/1" "3" "note").1 = "3" :=
  addComment_position "http://test/wi/1" "3" "note" (by decide)

/-- C7: `addComment` interpolates the raw message into the RDF template
with no escaping — the message lands verbatim as the literal description
content, so a message with markup-significant characters violates the
necessary well-formedness condition for XML character data, while the
escaping the claim requires would have produced different (well-formed)
content. -/
theorem addComment_unescaped_markup :
    (addComment "http://test/wi/1" "3" "a<b&c]]>").2
        = commentPre ++ "http://test/wi/1/rtc_cm:comments/3" ++ commentMid
          ++ "a<b&c]]>" ++ commentPost ∧
    literalContentOk "a<b&c]]>" = false ∧
    escapeXml "a<b&c]]>" ≠ "a<b&c]]>" :=
  ⟨rfl, by decide, by decide⟩

/-- C8: single-email mutations are idempotent at the write level: adding
a not-yet-present member writes once, adding it again writes nothing and
returns normally with the same state, and removing an absent member
writes nothing and returns normally with the state unchanged. -/
theorem addSubscriber_idempotent_writes (resolve : String → String)
    (s : String) (st st1 : Option SubsProp)
    (hs : hasAt s.toList = true)
    (hm : resolve s ∉ members st)
    (h1 : (addSubscriber resolve (.pyStr s) st).result = .ok st1) :
    (addSubscriber resolve (.pyStr s) st).puts = 1 ∧
    (addSubscriber resolve (.pyStr s) st1).puts = 0 ∧
    (addSubscriber resolve (.pyStr s) st1).result = .ok st1 ∧
    (removeSubscriber resolve (.pyStr s) st).puts = 0 ∧
    (removeSubscriber resolve (.pyStr s) st).result = .ok st := by
  have hadd : add_subscriber resolve (.pyStr s) st
      = .ok (false, pushMember (resolve s) st) := by
    rw [add_subscriber_valid resolve s st hs, if_neg hm]
  have hst1 : st1 = pushMember (resolve s) st := by
    have h2 : (runBatch (add_subscriber resolve (.pyStr s) st) st).result
        = .ok st1 := h1
    rw [hadd] at h2
    have h3 : (Except.ok (pushMember (resolve s) st) :
        Except RTCError (Option SubsProp)) = .ok st1 := h2
    injection h3 with h4
    exact h4.symm
  have hmem2 : resolve s ∈ members st1 := by
    rw [hst1]
    exact mem_pushMember _ _
  have hadd2 : add_subscriber resolve (.pyStr s) st1 = .ok (true, st1) := by
    rw [add_subscriber_valid resolve s st1 hs, if_pos hmem2]
  have hrm : remove_subscriber resolve (.pyStr s) st = .ok (true, st) := by
    rw [remove_subscriber_valid resolve s st hs, if_neg hm]
  refine ⟨?_, ?_, ?_, ?_, ?_⟩
  · show (runBatch (add_subscriber resolve (.pyStr s) st) st).puts = 1
    rw [hadd]
    rfl
  · show (runBatch (add_subscriber resolve (.pyStr s) st1) st1).puts = 0
    rw [hadd2]
    rfl
  · show (runBatch (add_subscriber resolve (.pyStr s) st1) st1).result
        = .ok st1
    rw [hadd2]
    rfl
  · show (runBatch (remove_subscriber resolve (.pyStr s) st) st).puts = 0
    rw [hrm]
    rfl
  · show (runBatch (remove_subscriber resolve (.pyStr s) st) st).result
        = .ok st
    rw [hrm]
    rfl

theorem addSubscriber_idempotent_writes_witness :
    (addSubscriber (fun _ => "u") (.pyStr "a@x")
        (none : Option SubsProp)).puts = 1 ∧
    (addSubscriber (fun _ => "u") (.pyStr "a@x")
        (some (SubsProp.one "u"))).puts = 0 ∧
    (addSubscriber (fun _ => "u") (.pyStr "a@x")
        (some (SubsProp.one "u"))).result = .ok (some (SubsProp.one "u")) ∧
    (removeSubscriber (fun _ => "u") (.pyStr "a@x")
        (none : Option SubsProp)).puts = 0 ∧
    (removeSubscriber (fun _ => "u") (.pyStr "a@x")
        (none : Option SubsProp)).result = .ok none :=
  addSubscriber_idempotent_writes (fun _ => "u") "a@x" none
    (some (.one "u")) rfl (List.not_mem_nil "u") rfl

/-- C9: a batch call with a valid list of well-formed emails performs
exactly one GET and at most one PUT, and `removeSubscribers` skips the
write exactly when every requested member was already absent. -/
theorem batch_one_fetch_at_most_one_write (resolve : String → String)
    (el : List PyVal) (st : Option SubsProp)
    (hv : el.all isValidEmail = true) :
    (addSubscribers resolve (.pyList el) st).gets = 1 ∧
    (addSubscribers resolve (.pyList el) st).puts ≤ 1 ∧
    (removeSubscribers resolve (.pyList el) st).gets = 1 ∧
    (removeSubscribers resolve (.pyList el) st).puts ≤ 1 ∧
    ((removeSubscribers resolve (.pyList el) st).puts = 0 ↔
      allAbsent resolve el st = true) := by
  have hv2 : ∀ e ∈ el, isValidEmail e = true := List.all_eq_true.mp hv
  have hadd : addSubscribers resolve (.pyList el) st
      = runBatch (addLoop resolve el st false) st := rfl
  have hrm : removeSubscribers resolve (.pyList el) st
      = runBatch (rmLoop resolve el st true) st := rfl
  refine ⟨?_, ?_, ?_, ?_, ?_⟩
  · rw [hadd]; exact runBatch_gets _ _
  · rw [hadd]; exact runBatch_puts_le _ _
  · rw [hrm]; exact runBatch_gets _ _
  · rw [hrm]; exact runBatch_puts_le _ _
  · rw [hrm]
    constructor
    · intro h0
      obtain ⟨p, hp⟩ := rmLoop_ok resolve el st true hv2
      obtain ⟨pf, pst⟩ := p
      cases pf with
      | false =>
          rw [hp] at h0
          simp [runBatch] at h0
      | true =>
          obtain ⟨_, habs⟩ := rmLoop_true_absent resolve el st true pst hp
          exact (allAbsent_iff resolve el st).mpr habs
    · intro hab
      have habs := (allAbsent_iff resolve el st).mp hab
      rw [rmLoop_all_absent resolve el st true hv2 habs]
      rfl

theorem batch_one_fetch_at_most_one_write_witness :
    (addSubscribers (fun _ => "u") (.pyList [.pyStr "a@x"])
        (none : Option SubsProp)).gets = 1 ∧
    (addSubscribers (fun _ => "u") (.pyList [.pyStr "a@x"])
        (none : Option SubsProp)).puts ≤ 1 ∧
    (removeSubscribers (fun _ => "u") (.pyList [.pyStr "a@x"])
        (none : Option SubsProp)).gets = 1 ∧
    (removeSubscribers (fun _ => "u") (.pyList [.pyStr "a@x"])
        (none : Option SubsProp)).puts ≤ 1 ∧
    ((removeSubscribers (fun _ => "u") (.pyList [.pyStr "a@x"])
        (none : Option SubsProp)).puts = 0 ↔
      allAbsent (fun _ => "u") [.pyStr "a@x"] none = true) :=
  batch_one_fetch_at_most_one_write (fun _ => "u") [.pyStr "a@x"] none rfl

/-- C10: a plain string passed as `emails_list` passes the iterability
check, the initial GET is issued, and the string is iterated character by
character, so the call fails with `BadValue` on the first one-character
email when that character is not `@`. -/
theorem string_emails_list_iterates_chars (resolve : String → String)
    (s : String) (c : Char) (rest : List Char) (st : Option SubsProp)
    (hs : s.toList = c :: rest) (hc : c ≠ '@') :
    hasIter (.pyStr s) = true ∧
    addSubscribers resolve (.pyStr s) st = ⟨1, 0, .error .badValue⟩ ∧
    removeSubscribers resolve (.pyStr s) st = ⟨1, 0, .error .badValue⟩ := by
  have hinv : isValidEmail (.pyStr (String.mk [c])) = false := by
    show hasAt [c] = false
    simp [hasAt, hc]
  have hfa : add_subscriber resolve (.pyStr (String.mk [c])) st
      = .error .badValue :=
    add_subscriber_invalid resolve _ st hinv
  have hfr : remove_subscriber resolve (.pyStr (String.mk [c])) st
      = .error .badValue :=
    remove_subscriber_invalid resolve _ st hinv
  have hiter : toIterable (.pyStr s)
      = PyVal.pyStr (String.mk [c])
          :: rest.map (fun ch => PyVal.pyStr (String.mk [ch])) := by
    show s.toList.map (fun ch => PyVal.pyStr (String.mk [ch])) = _
    rw [hs, List.map_cons]
  refine ⟨rfl, ?_, ?_⟩
  · show runBatch (addLoop resolve (toIterable (.pyStr s)) st false) st = _
    rw [hiter, addLoop, hfa]
    rfl
  · show runBatch (rmLoop resolve (toIterable (.pyStr s)) st true) st = _
    rw [hiter, rmLoop, hfr]
    rfl

theorem string_emails_list_iterates_chars_witness :
    hasIter (.pyStr "a@x.com") = true ∧
    addSubscribers (fun _ => "u") (.pyStr "a@x.com") none
        = ⟨1, 0, .error .badValue⟩ ∧
    removeSubscribers (fun _ => "u") (.pyStr "a@x.com") none
        = ⟨1, 0, .error .badValue⟩ :=
  string_emails_list_iterates_chars (fun _ => "u") "a@x.com" 'a'
    ['@', 'x', '.', 'c', 'o', 'm'] none rfl (by decide)

end RTC
